import Mathlib

/-!
# The rope and the edit buffer of the editor core

A shallow embedding of `src/core/rope.{hpp,cpp}` and `src/core/buffer.{hpp,cpp}`.

* `std::string` / `std::string_view` values are lists of characters (`Text`).
* `std::shared_ptr<Node>` is `NodePtr`: either `nullptr` or a node with its five fields.
  Nodes are never mutated after construction, so sharing is not observable.
* `size_t` values are natural numbers; every subtraction in the source is guarded by a
  comparison, and sums of text lengths stay far below `2^64`.
* A member function that mutates its object returns an `Outcome`: the object after the
  call together with the exception that left the call, if any.
-/

namespace editor

/-- Contents of a `std::string` or `std::string_view`. -/
abbrev Text := List Char

/-- The ways a call can go wrong. -/
inductive Fault
  /-- A `std::out_of_range` exception. -/
  | OutOfRange
  /-- The leaf lookup `data[index]` with `index > data.size()`: undefined behaviour. -/
  | Undefined
  deriving DecidableEq

/-- The object after a call, and the exception thrown by the call (if any). -/
structure Outcome (σ : Type) where
  state : σ
  thrown : Option Fault
  deriving DecidableEq

/-- A `std::shared_ptr<Rope::Node>`: `nullptr`, or a node with the fields
`data`, `length`, `weight`, `left`, `right` of `struct Node`. -/
inductive NodePtr
  | null : NodePtr
  | node (data : Text) (length weight : Nat) (left right : NodePtr) : NodePtr
  deriving DecidableEq

namespace NodePtr

/-- The expression `p ? p->length : 0` of the two-child constructor. -/
def lengthOr0 : NodePtr → Nat
  | null => 0
  | node _ length _ _ _ => length

/-- The test `!p`. -/
def isNull : NodePtr → Bool
  | null => true
  | node _ _ _ _ _ => false

/-- Constructor `Node(std::string_view text)`. -/
def leaf (text : Text) : NodePtr :=
  node text text.length text.length null null

/-- Constructor `Node(std::shared_ptr<Node> l, std::shared_ptr<Node> r)`. -/
def join (l r : NodePtr) : NodePtr :=
  node [] (l.lengthOr0 + r.lengthOr0) l.lengthOr0 l r

end NodePtr

open NodePtr

/-- The function `Rope::insert_at`. -/
def insert_at : NodePtr → Nat → Text → NodePtr
  | null, _, text => leaf text
  | node _ _ weight left right, pos, text =>
    if pos ≤ weight then
      let new_left := insert_at left pos text
      join new_left right
    else
      let new_right := insert_at right (pos - weight) text
      join left new_right

/-- The function `Rope::erase_range`. -/
def erase_range : NodePtr → Nat → Nat → NodePtr
  | null, _, _ => null
  | node data length weight left right, pos, len =>
    if len = 0 then node data length weight left right
    else if pos < weight then
      let new_left := erase_range left pos (min len (weight - pos))
      let remaining := len - min len (weight - pos)
      let new_right := if remaining > 0 then erase_range right 0 remaining else right
      if new_left.isNull && new_right.isNull then null
      else if new_left.isNull then new_right
      else if new_right.isNull then new_left
      else join new_left new_right
    else
      let new_right := erase_range right (pos - weight) len
      if new_right.isNull then left
      else join left new_right

/-- The function `Rope::collect_text`; the appended characters are returned. -/
def collect_text : NodePtr → Text
  | null => []
  | node data _ _ left right =>
    if left.isNull && right.isNull then data
    else collect_text left ++ collect_text right

/-- The function `Rope::index_of`. In the leaf case `data[index]` is the character at
`index`, the terminating `'\0'` when `index = data.size()`, and undefined beyond. -/
def index_of : NodePtr → Nat → Except Fault Char
  | null, _ => .error Fault.OutOfRange
  | node data _ weight left right, index =>
    if left.isNull && right.isNull then
      match data.get? index with
      | some c => .ok c
      | none => if index = data.length then .ok (Char.ofNat 0) else .error Fault.Undefined
    else if index < weight then index_of left index
    else index_of right (index - weight)

/-- The data members of `class Rope`. -/
structure Rope where
  root_ : NodePtr
  length_ : Nat
  deriving DecidableEq

namespace Rope

/-- The default constructor `Rope()`. -/
def empty_ : Rope := ⟨null, 0⟩

/-- The constructor `Rope(std::string_view text)`. -/
def ofText (text : Text) : Rope :=
  if text ≠ [] then ⟨leaf text, text.length⟩ else ⟨null, text.length⟩

/-- The member `length()`. -/
def length (r : Rope) : Nat := r.length_

/-- The member `empty()`. -/
def empty (r : Rope) : Bool := r.length_ == 0

/-- The member `Rope::insert`. -/
def insert (r : Rope) (pos : Nat) (text : Text) : Outcome Rope :=
  if pos > r.length_ then ⟨r, some Fault.OutOfRange⟩
  else if text = [] then ⟨r, none⟩
  else ⟨⟨insert_at r.root_ pos text, r.length_ + text.length⟩, none⟩

/-- The member `Rope::erase`. -/
def erase (r : Rope) (pos len : Nat) : Outcome Rope :=
  if pos ≥ r.length_ then ⟨r, some Fault.OutOfRange⟩
  else
    let len := min len (r.length_ - pos)
    if len = 0 then ⟨r, none⟩
    else ⟨⟨erase_range r.root_ pos len, r.length_ - len⟩, none⟩

/-- The member `Rope::at`. -/
def at_ (r : Rope) (pos : Nat) : Except Fault Char :=
  if pos ≥ r.length_ then .error Fault.OutOfRange
  else index_of r.root_ pos

/-- The loop `for (i = 0; i < len; ++i) result.push_back(at(pos + i))` of `Rope::substr`,
with `todo = len - i` iterations still to run. -/
def substr_loop (r : Rope) (pos : Nat) : Nat → Nat → Text → Except Fault Text
  | 0, _, result => .ok result
  | todo + 1, i, result =>
    match r.at_ (pos + i) with
    | .error e => .error e
    | .ok c => substr_loop r pos todo (i + 1) (result ++ [c])

/-- The member `Rope::substr`. -/
def substr (r : Rope) (pos len : Nat) : Except Fault Text :=
  if pos ≥ r.length_ then .ok []
  else
    let len := min len (r.length_ - pos)
    substr_loop r pos len 0 []

/-- The member `Rope::to_string`. -/
def to_string (r : Rope) : Text := collect_text r.root_

end Rope

/-- The struct `Selection`. -/
structure Selection where
  start : Nat
  end_ : Nat
  deriving DecidableEq

/-- Constructor `Selection(size_t pos)`: the collapsed selection at `pos`. -/
def Selection.collapsed (pos : Nat) : Selection := ⟨pos, pos⟩

/-- The struct `EditOperation`. -/
structure EditOperation where
  position : Nat
  oldText : Text
  newText : Text
  oldSelection : Selection
  newSelection : Selection
  deriving DecidableEq

/-- The state of a `std::string` after it was the argument of a move construction.
The standard leaves it valid but unspecified; libc++, libstdc++ and the MSVC library all
leave the source string empty. -/
def movedFrom (_s : Text) : Text := []

/-- The state of an `EditOperation` after it was moved from: its strings are moved from,
its `size_t` and `Selection` members keep their values. -/
def EditOperation.movedFrom (op : EditOperation) : EditOperation :=
  { op with oldText := editor.movedFrom op.oldText, newText := editor.movedFrom op.newText }

/-- The data members of `class Buffer`. The two stacks are `std::vector`s:
`push_back` appends at the end, `back` is the last element. -/
structure Buffer where
  rope_ : Rope
  selection_ : Selection
  undoStack_ : List EditOperation
  redoStack_ : List EditOperation
  modified_ : Bool
  deriving DecidableEq

namespace Buffer

/-- The default constructor `Buffer()`. -/
def new : Buffer := ⟨Rope.empty_, Selection.collapsed 0, [], [], false⟩

/-- The member `getSelection()`. -/
def getSelection (b : Buffer) : Selection := b.selection_

/-- The member `at(pos)`. -/
def at_ (b : Buffer) (pos : Nat) : Except Fault Char := b.rope_.at_ pos

/-- The member `substr(pos, len)`. -/
def substr (b : Buffer) (pos len : Nat) : Except Fault Text := b.rope_.substr pos len

/-- The member `length()`. -/
def length (b : Buffer) : Nat := b.rope_.length

/-- The member `text()`. -/
def text (b : Buffer) : Text := b.rope_.to_string

/-- The member `canUndo()`. -/
def canUndo (b : Buffer) : Bool := !b.undoStack_.isEmpty

/-- The member `canRedo()`. -/
def canRedo (b : Buffer) : Bool := !b.redoStack_.isEmpty

/-- The member `isModified()`. -/
def isModified (b : Buffer) : Bool := b.modified_

/-- The member `setModified(modified)`. -/
def setModified (b : Buffer) (modified : Bool) : Buffer := { b with modified_ := modified }

/-- The member `Buffer::clearRedoStack`. -/
def clearRedoStack (b : Buffer) : Buffer := { b with redoStack_ := [] }

/-- The member `Buffer::pushEdit`. -/
def pushEdit (b : Buffer) (op : EditOperation) : Buffer :=
  clearRedoStack { b with undoStack_ := b.undoStack_ ++ [op] }

/-- The member `Buffer::insert`. -/
def insert (b : Buffer) (pos : Nat) (text : Text) : Outcome Buffer :=
  if text = [] then ⟨b, none⟩
  else
    let op : EditOperation :=
      ⟨pos, [], text, b.selection_, Selection.collapsed (pos + text.length)⟩
    let r := b.rope_.insert pos text
    match r.thrown with
    | some e => ⟨{ b with rope_ := r.state }, some e⟩
    | none =>
      ⟨pushEdit { b with rope_ := r.state, selection_ := op.newSelection, modified_ := true } op,
        none⟩

/-- The member `Buffer::erase`. -/
def erase (b : Buffer) (pos len : Nat) : Outcome Buffer :=
  if len = 0 then ⟨b, none⟩
  else
    match b.rope_.substr pos len with
    | .error e => ⟨b, some e⟩
    | .ok oldText =>
      let op : EditOperation := ⟨pos, oldText, [], b.selection_, Selection.collapsed pos⟩
      let r := b.rope_.erase pos len
      match r.thrown with
      | some e => ⟨{ b with rope_ := r.state }, some e⟩
      | none =>
        ⟨pushEdit { b with rope_ := r.state, selection_ := op.newSelection, modified_ := true } op,
          none⟩

/-- The member `Buffer::replace`. -/
def replace (b : Buffer) (pos len : Nat) (text : Text) : Outcome Buffer :=
  match b.rope_.substr pos len with
  | .error e => ⟨b, some e⟩
  | .ok oldText =>
    let op : EditOperation :=
      ⟨pos, oldText, text, b.selection_, Selection.collapsed (pos + text.length)⟩
    let r1 := b.rope_.erase pos len
    match r1.thrown with
    | some e => ⟨{ b with rope_ := r1.state }, some e⟩
    | none =>
      let r2 := r1.state.insert pos text
      match r2.thrown with
      | some e => ⟨{ b with rope_ := r2.state }, some e⟩
      | none =>
        ⟨pushEdit { b with rope_ := r2.state, selection_ := op.newSelection, modified_ := true } op,
          none⟩

/-- The member `Buffer::setCursor`. -/
def setCursor (b : Buffer) (pos : Nat) : Buffer :=
  let pos := min pos b.length
  { b with selection_ := Selection.collapsed pos }

/-- The member `Buffer::setSelection`. -/
def setSelection (b : Buffer) (start end_ : Nat) : Buffer :=
  let start := min start b.length
  let end_ := min end_ b.length
  { b with selection_ := ⟨start, end_⟩ }

/-- The member `Buffer::loadFromFile`, given what opening and reading the file yields:
`none` when the file cannot be opened, else its whole content. The `Bool` is the
returned value. -/
def loadFromFile (b : Buffer) (file : Option Text) : Outcome Buffer × Bool :=
  match file with
  | none => (⟨b, none⟩, false)
  | some content =>
    let b1 : Buffer := { b with rope_ := Rope.empty_, undoStack_ := [], redoStack_ := [] }
    let r := if content ≠ [] then b1.rope_.insert 0 content else ⟨b1.rope_, none⟩
    match r.thrown with
    | some e => (⟨{ b1 with rope_ := r.state }, some e⟩, false)
    | none =>
      (⟨{ b1 with rope_ := r.state, selection_ := Selection.collapsed 0, modified_ := false },
        none⟩, true)

/-- The member `Buffer::undo`. The redo record is built by moving `op.newText` and
`op.oldText` out of `op`; the tests and calls below it read `op` after those moves. -/
def undo (b : Buffer) : Outcome Buffer :=
  match b.undoStack_.getLast? with
  | none => ⟨b, none⟩
  | some top =>
    let b1 : Buffer := { b with undoStack_ := b.undoStack_.dropLast }
    let redoOp : EditOperation :=
      ⟨top.position, top.newText, top.oldText, top.newSelection, top.oldSelection⟩
    let op : EditOperation :=
      { top with newText := movedFrom top.newText, oldText := movedFrom top.oldText }
    let b2 : Buffer := { b1 with redoStack_ := b1.redoStack_ ++ [redoOp] }
    let r1 := if op.newText ≠ [] then b2.rope_.erase op.position op.newText.length
              else ⟨b2.rope_, none⟩
    match r1.thrown with
    | some e => ⟨{ b2 with rope_ := r1.state }, some e⟩
    | none =>
      let r2 := if op.oldText ≠ [] then r1.state.insert op.position op.oldText
                else ⟨r1.state, none⟩
      match r2.thrown with
      | some e => ⟨{ b2 with rope_ := r2.state }, some e⟩
      | none =>
        ⟨{ b2 with rope_ := r2.state, selection_ := op.oldSelection,
                   modified_ := !b2.undoStack_.isEmpty }, none⟩

/-- The member `Buffer::redo`. The popped record is moved into the undo stack; the tests
and calls below it read `op` after that move. -/
def redo (b : Buffer) : Outcome Buffer :=
  match b.redoStack_.getLast? with
  | none => ⟨b, none⟩
  | some top =>
    let b1 : Buffer := { b with redoStack_ := b.redoStack_.dropLast }
    let b2 : Buffer := { b1 with undoStack_ := b1.undoStack_ ++ [top] }
    let op : EditOperation := top.movedFrom
    let r1 := if op.oldText ≠ [] then b2.rope_.erase op.position op.oldText.length
              else ⟨b2.rope_, none⟩
    match r1.thrown with
    | some e => ⟨{ b2 with rope_ := r1.state }, some e⟩
    | none =>
      let r2 := if op.newText ≠ [] then r1.state.insert op.position op.newText
                else ⟨r1.state, none⟩
      match r2.thrown with
      | some e => ⟨{ b2 with rope_ := r2.state }, some e⟩
      | none =>
        ⟨{ b2 with rope_ := r2.state, selection_ := op.newSelection, modified_ := true }, none⟩

end Buffer

/-! ## Reachable states and the node invariant -/

/-- The rope states reachable from `Rope()` or `Rope(s)` by calls of `insert` and `erase`
that return without an exception. -/
inductive Rope.Reachable : Rope → Prop
  | empty_ : Rope.Reachable Rope.empty_
  | ofText (s : Text) : Rope.Reachable (Rope.ofText s)
  | insert {r : Rope} (pos : Nat) (text : Text) :
      Rope.Reachable r → (r.insert pos text).thrown = none →
      Rope.Reachable (r.insert pos text).state
  | erase {r : Rope} (pos len : Nat) :
      Rope.Reachable r → (r.erase pos len).thrown = none →
      Rope.Reachable (r.erase pos len).state

/-- The condition on one node: a leaf has `length` equal to the size of its fragment; a
node with a child holds no text, has `weight` equal to the length of its left child and
`length` equal to `weight` plus the length of its right child (0 for an absent child);
and `length` is the number of characters `collect_text` produces from the node. -/
def NodePtr.NodeOk : NodePtr → Prop
  | null => True
  | node data length weight left right =>
    ((left.isNull && right.isNull) = true → length = data.length) ∧
    ((left.isNull && right.isNull) = false →
      data = [] ∧ weight = left.lengthOr0 ∧ length = weight + right.lengthOr0) ∧
    length = (collect_text (node data length weight left right)).length

/-- The condition `NodeOk` on every node of a tree. -/
def NodePtr.AllNodesOk : NodePtr → Prop
  | null => True
  | node data length weight left right =>
    (node data length weight left right).NodeOk ∧ left.AllNodesOk ∧ right.AllNodesOk

/-- One call of a member of `Buffer` that can change the buffer. -/
inductive Call
  | insert (pos : Nat) (text : Text)
  | erase (pos len : Nat)
  | replace (pos len : Nat) (text : Text)
  | setCursor (pos : Nat)
  | setSelection (start end_ : Nat)
  | undo
  | redo
  | loadFromFile (file : Option Text)

/-- The buffer and the exception after one call. -/
def Buffer.run (b : Buffer) : Call → Outcome Buffer
  | Call.insert pos text => b.insert pos text
  | Call.erase pos len => b.erase pos len
  | Call.replace pos len text => b.replace pos len text
  | Call.setCursor pos => ⟨b.setCursor pos, none⟩
  | Call.setSelection start end_ => ⟨b.setSelection start end_, none⟩
  | Call.undo => b.undo
  | Call.redo => b.redo
  | Call.loadFromFile file => (b.loadFromFile file).1

/-- The buffer states reachable from a new `Buffer` by calls that return without an
exception. -/
inductive Buffer.Reachable : Buffer → Prop
  | new : Buffer.Reachable Buffer.new
  | step {b : Buffer} (c : Call) :
      Buffer.Reachable b → (b.run c).thrown = none → Buffer.Reachable (b.run c).state

/-! ## Supporting facts about the code -/

/-- Whatever fragment a leaf holds, `insert_at` on that leaf yields a tree whose in-order
text is the inserted text alone: the leaf is rebuilt as an internal node and its `data`
is not carried over. -/
theorem collect_text_insert_at_leaf (s t : Text) (pos : Nat) :
    collect_text (insert_at (leaf s) pos t) = t := by
  unfold leaf
  by_cases h : pos ≤ s.length
  · cases t <;> simp [insert_at, h, join, leaf, collect_text, isNull]
  · cases t <;> simp [insert_at, h, join, leaf, collect_text, isNull]

/-- Erasing a non-empty span anywhere in a leaf removes the whole leaf. -/
theorem erase_range_leaf (s : Text) (pos len : Nat) (hlen : len ≠ 0) :
    erase_range (leaf s) pos len = null := by
  unfold leaf
  by_cases h : pos < s.length
  · by_cases h2 : len - min len (s.length - pos) > 0 <;>
      simp [erase_range, hlen, h, h2, isNull]
  · simp [erase_range, hlen, h, isNull]

/-- The call `undo()` never changes the rope: both guarded rope calls test strings that
were moved from. -/
theorem undo_keeps_rope (b : Buffer) : b.undo.state.rope_ = b.rope_ := by
  unfold Buffer.undo
  cases b.undoStack_.getLast? <;> simp [movedFrom]

/-- The call `redo()` never changes the rope either. -/
theorem redo_keeps_rope (b : Buffer) : b.redo.state.rope_ = b.rope_ := by
  unfold Buffer.redo
  cases b.redoStack_.getLast? <;> simp [EditOperation.movedFrom, movedFrom]

/-! ## The node invariant is kept by the tree functions -/

/-- For a tree whose nodes are all in order, the length used by the two-child
constructor is the number of characters of the tree. -/
theorem lengthOr0_eq_collect_length (n : NodePtr) (h : n.AllNodesOk) :
    n.lengthOr0 = (collect_text n).length := by
  cases n with
  | null => rfl
  | node data length weight left right => exact h.1.2.2

/-- A node built by the text constructor is in order. -/
theorem allNodesOk_leaf (text : Text) : (leaf text).AllNodesOk := by
  simp [leaf, NodePtr.AllNodesOk, NodePtr.NodeOk, collect_text, isNull]

/-- A node built by the two-child constructor over trees in order is in order. -/
theorem allNodesOk_join (l r : NodePtr) (hl : l.AllNodesOk) (hr : r.AllNodesOk) :
    (join l r).AllNodesOk := by
  have el := lengthOr0_eq_collect_length l hl
  have er := lengthOr0_eq_collect_length r hr
  refine ⟨⟨?_, ?_, ?_⟩, hl, hr⟩
  · intro hnull
    cases l <;> cases r <;> simp_all [isNull, lengthOr0]
  · intro _
    exact ⟨rfl, rfl, rfl⟩
  · by_cases hnull : (l.isNull && r.isNull) = true
    · cases l <;> cases r <;> simp_all [isNull, lengthOr0, collect_text]
    · simp [collect_text, hnull, el, er]

/-- The function `insert_at` keeps every node in order. -/
theorem allNodesOk_insert_at (n : NodePtr) (pos : Nat) (text : Text) (h : n.AllNodesOk) :
    (insert_at n pos text).AllNodesOk := by
  induction n generalizing pos with
  | null => exact allNodesOk_leaf text
  | node data length weight left right ihl ihr =>
    unfold insert_at
    split
    · exact allNodesOk_join _ _ (ihl pos h.2.1) h.2.2
    · exact allNodesOk_join _ _ h.2.1 (ihr (pos - weight) h.2.2)

/-- The way `erase_range` recombines the two rebuilt children keeps every node in
order. -/
theorem allNodesOk_recombine (nl nr : NodePtr) (hl : nl.AllNodesOk) (hr : nr.AllNodesOk) :
    (if (nl.isNull && nr.isNull) = true then null
     else if nl.isNull = true then nr
     else if nr.isNull = true then nl
     else join nl nr).AllNodesOk := by
  split
  · trivial
  · split
    · exact hr
    · split
      · exact hl
      · exact allNodesOk_join _ _ hl hr

/-- The function `erase_range` keeps every node in order. -/
theorem allNodesOk_erase_range (n : NodePtr) (pos len : Nat) (h : n.AllNodesOk) :
    (erase_range n pos len).AllNodesOk := by
  induction n generalizing pos len with
  | null => simp [erase_range, NodePtr.AllNodesOk]
  | node data length weight left right ihl ihr =>
    have hl := h.2.1
    have hr := h.2.2
    have hnr : (if len - min len (weight - pos) > 0
        then erase_range right 0 (len - min len (weight - pos)) else right).AllNodesOk := by
      split
      · exact ihr _ _ hr
      · exact hr
    unfold erase_range
    by_cases h0 : len = 0
    · simp only [h0, if_true]
      exact h
    · by_cases hp : pos < weight
      · simp only [h0, hp, if_true, if_false]
        exact allNodesOk_recombine _ _ (ihl _ _ hl) hnr
      · simp only [h0, hp, if_false]
        split
        · exact hl
        · exact allNodesOk_join _ _ hl (ihr _ _ hr)

/-- The node condition rejects a leaf whose `length` is not the size of its fragment. -/
theorem not_allNodesOk_wrong_leaf :
    ¬ (NodePtr.node "ab".toList 5 5 NodePtr.null NodePtr.null).AllNodesOk := by
  simp [NodePtr.AllNodesOk, NodePtr.NodeOk, isNull]

/-! ## The range checks of the rope -/

/-- The exception of `Rope::insert` is decided by its first test alone. -/
theorem Rope.insert_thrown (r : Rope) (pos : Nat) (text : Text) :
    (r.insert pos text).thrown = if pos > r.length_ then some Fault.OutOfRange else none := by
  unfold Rope.insert
  by_cases h : pos > r.length_
  · simp [h]
  · by_cases ht : text = [] <;> simp [h, ht]

/-- The exception of `Rope::erase` is decided by its first test alone. -/
theorem Rope.erase_thrown (r : Rope) (pos len : Nat) :
    (r.erase pos len).thrown = if pos ≥ r.length_ then some Fault.OutOfRange else none := by
  unfold Rope.erase
  by_cases h : pos ≥ r.length_
  · simp [h]
  · by_cases hl : min len (r.length_ - pos) = 0 <;> simp [h, hl]

/-- A call of `Rope::insert` that throws leaves the rope as it was. -/
theorem Rope.insert_state_of_thrown (r : Rope) (pos : Nat) (text : Text)
    (h : (r.insert pos text).thrown ≠ none) : (r.insert pos text).state = r := by
  unfold Rope.insert at h ⊢
  by_cases hp : pos > r.length_
  · simp [hp]
  · by_cases ht : text = [] <;> simp [hp, ht] at h ⊢

/-- A call of `Rope::erase` that throws leaves the rope as it was. -/
theorem Rope.erase_state_of_thrown (r : Rope) (pos len : Nat)
    (h : (r.erase pos len).thrown ≠ none) : (r.erase pos len).state = r := by
  unfold Rope.erase at h ⊢
  by_cases hp : pos ≥ r.length_
  · simp [hp]
  · by_cases hl : min len (r.length_ - pos) = 0 <;> simp [hp, hl] at h ⊢

/-- The cached length after `Rope::insert` returned. -/
theorem Rope.insert_length (r : Rope) (pos : Nat) (text : Text)
    (h : (r.insert pos text).thrown = none) :
    (r.insert pos text).state.length_ = r.length_ + text.length := by
  unfold Rope.insert at h ⊢
  by_cases hp : pos > r.length_
  · simp [hp] at h
  · by_cases ht : text = [] <;> simp [hp, ht]

/-- The cached length after `Rope::erase` returned. -/
theorem Rope.erase_length (r : Rope) (pos len : Nat)
    (h : (r.erase pos len).thrown = none) :
    (r.erase pos len).state.length_ = r.length_ - min len (r.length_ - pos) := by
  unfold Rope.erase at h ⊢
  by_cases hp : pos ≥ r.length_
  · simp [hp] at h
  · by_cases hl : min len (r.length_ - pos) = 0
    · simp [hp, hl]
    · simp [hp, hl]

/-! ## The edit history -/

/-- The three edits end in `pushEdit`, which leaves the undo stack non-empty, and set
the modified flag; `undo` recomputes the flag from the stack it leaves; `redo` pushes a
record and sets the flag; the other calls touch neither. So one call that returns keeps
the modified flag equal to "the undo stack is not empty". -/
theorem modified_tracks_undo_run (b : Buffer) (c : Call)
    (hb : b.modified_ = !b.undoStack_.isEmpty) (hok : (b.run c).thrown = none) :
    (b.run c).state.modified_ = !(b.run c).state.undoStack_.isEmpty := by
  cases c with
  | insert pos text =>
    simp only [Buffer.run, Buffer.insert] at hok ⊢
    by_cases ht : text = []
    · simp [ht, hb]
    · simp only [ht, if_false] at hok ⊢
      cases hr : (b.rope_.insert pos text).thrown with
      | some e => simp [hr] at hok
      | none => simp [hr, Buffer.pushEdit, Buffer.clearRedoStack]
  | erase pos len =>
    simp only [Buffer.run, Buffer.erase] at hok ⊢
    by_cases hl : len = 0
    · simp [hl, hb]
    · simp only [hl, if_false] at hok ⊢
      cases hs : b.rope_.substr pos len with
      | error e => simp [hs] at hok
      | ok oldText =>
        simp only [hs] at hok ⊢
        cases hr : (b.rope_.erase pos len).thrown with
        | some e => simp [hr] at hok
        | none => simp [hr, Buffer.pushEdit, Buffer.clearRedoStack]
  | replace pos len text =>
    simp only [Buffer.run, Buffer.replace] at hok ⊢
    cases hs : b.rope_.substr pos len with
    | error e => simp [hs] at hok
    | ok oldText =>
      simp only [hs] at hok ⊢
      cases hr : (b.rope_.erase pos len).thrown with
      | some e => simp [hr] at hok
      | none =>
        simp only [hr] at hok ⊢
        cases hr2 : ((b.rope_.erase pos len).state.insert pos text).thrown with
        | some e => simp [hr2] at hok
        | none => simp [hr2, Buffer.pushEdit, Buffer.clearRedoStack]
  | setCursor pos => simpa [Buffer.run, Buffer.setCursor] using hb
  | setSelection start end_ => simpa [Buffer.run, Buffer.setSelection] using hb
  | undo =>
    simp only [Buffer.run, Buffer.undo] at hok ⊢
    cases hu : b.undoStack_.getLast? with
    | none => simpa [hu] using hb
    | some top => simp [hu, movedFrom]
  | redo =>
    simp only [Buffer.run, Buffer.redo] at hok ⊢
    cases hu : b.redoStack_.getLast? with
    | none => simpa [hu] using hb
    | some top => simp [hu, movedFrom, EditOperation.movedFrom]
  | loadFromFile file =>
    cases file with
    | none => simpa [Buffer.run, Buffer.loadFromFile] using hb
    | some content =>
      by_cases hc : content = []
      · simp [Buffer.run, Buffer.loadFromFile, hc]
      · simp [Buffer.run, Buffer.loadFromFile, hc, Rope.insert, Rope.empty_]

/-! ## The claims -/

/-- C1 fails on the code. On the rope holding "hello", `insert(5, " world")` returns
without an exception, and `to_string()` is then " world" instead of "hello world":
`insert_at` reaches the leaf "hello" and returns a fresh internal node over the new leaf,
so the old fragment is lost. -/
theorem C1_insert_loses_leaf_text :
    ((Rope.ofText "hello".toList).insert 5 " world".toList).thrown = none ∧
    ((Rope.ofText "hello".toList).insert 5 " world".toList).state.to_string
      = " world".toList ∧
    ((Rope.ofText "hello".toList).insert 5 " world".toList).state.to_string
      ≠ (Rope.ofText "hello".toList).to_string.take 5 ++ " world".toList
          ++ (Rope.ofText "hello".toList).to_string.drop 5 := by
  decide

/-- C2 fails on the code. On the rope holding "abc", `erase(1, 1)` returns without an
exception, and `to_string()` is then "" instead of "ac": `erase_range` answers `nullptr`
for the leaf, so the characters around the span are removed with it. -/
theorem C2_erase_removes_whole_leaf :
    ((Rope.ofText "abc".toList).erase 1 1).thrown = none ∧
    ((Rope.ofText "abc".toList).erase 1 1).state.to_string = [] ∧
    ((Rope.ofText "abc".toList).erase 1 1).state.to_string
      ≠ (Rope.ofText "abc".toList).to_string.take 1
          ++ (Rope.ofText "abc".toList).to_string.drop (1 + min 1 (3 - 1)) := by
  decide

/-- C3 fails on the code. On the rope holding "hello", `insert(0, "ab")` followed by
`erase(0, 2)` both return without an exception and leave `to_string()` equal to "", not
to the "hello" it was before the insert. -/
theorem C3_insert_erase_round_trip_fails :
    ((Rope.ofText "hello".toList).insert 0 "ab".toList).thrown = none ∧
    (((Rope.ofText "hello".toList).insert 0 "ab".toList).state.erase 0 2).thrown = none ∧
    (((Rope.ofText "hello".toList).insert 0 "ab".toList).state.erase 0 2).state.to_string
      = [] ∧
    (Rope.ofText "hello".toList).to_string = "hello".toList := by
  decide

/-- C4 fails on the code. On a new buffer, `insert(0, "hello")` and then `undo()` both
return without an exception, and `text()` is still "hello", not the "" it was before the
insert. On the buffer loaded with "abc", `erase(1, 1)` and then `undo()` return without
an exception and `text()` is "", not "abc". In `undo()` the texts of the popped record
are moved into the redo record before they are tested, so neither rope call is made. -/
theorem C4_undo_does_not_restore_text :
    (Buffer.new.insert 0 "hello".toList).thrown = none ∧
    (Buffer.new.insert 0 "hello".toList).state.undo.thrown = none ∧
    (Buffer.new.insert 0 "hello".toList).state.undo.state.text = "hello".toList ∧
    Buffer.new.text = [] ∧
    (Buffer.new.loadFromFile (some "abc".toList)).1.state.text = "abc".toList ∧
    ((Buffer.new.loadFromFile (some "abc".toList)).1.state.erase 1 1).thrown = none ∧
    ((Buffer.new.loadFromFile (some "abc".toList)).1.state.erase 1 1).state.undo.thrown
      = none ∧
    ((Buffer.new.loadFromFile (some "abc".toList)).1.state.erase 1 1).state.undo.state.text
      = [] := by
  decide

/-- C5 fails on the code. On a new buffer, `insert(0, "hello")`, `undo()`, `redo()` all
return without an exception; right after the insert the selection is collapsed at 5, and
after the redo it is collapsed at 0: `redo()` installs `newSelection` of the record that
`undo()` built, which is the selection from before the insert. -/
theorem C5_redo_restores_old_selection :
    (Buffer.new.insert 0 "hello".toList).state.getSelection = Selection.collapsed 5 ∧
    (Buffer.new.insert 0 "hello".toList).state.undo.thrown = none ∧
    (Buffer.new.insert 0 "hello".toList).state.undo.state.redo.thrown = none ∧
    (Buffer.new.insert 0 "hello".toList).state.undo.state.redo.state.text
      = "hello".toList ∧
    (Buffer.new.insert 0 "hello".toList).state.undo.state.redo.state.getSelection
      = Selection.collapsed 0 := by
  decide

/-- C6 fails on the code. After `insert(5, " world")` on the rope holding "hello",
`length()` is 11 and `at(7)` fails with OutOfRange although 7 < 11: `index_of` walks into
the absent right child. After `insert(5, "ab")` and `insert(7, "c")` on the rope holding
"hello", `length()` is 8, `at(3)` reads the terminator one past the end of the fragment
"c" (while `to_string()` has only 3 characters) and `at(4)` indexes beyond it. -/
theorem C6_at_fails_inside_bounds :
    ((Rope.ofText "hello".toList).insert 5 " world".toList).state.length = 11 ∧
    ((Rope.ofText "hello".toList).insert 5 " world".toList).state.at_ 7
      = .error Fault.OutOfRange ∧
    (((Rope.ofText "hello".toList).insert 5 "ab".toList).state.insert 7 "c".toList).state.length
      = 8 ∧
    (((Rope.ofText "hello".toList).insert 5 "ab".toList).state.insert 7 "c".toList).state.to_string
      = "abc".toList ∧
    (((Rope.ofText "hello".toList).insert 5 "ab".toList).state.insert 7 "c".toList).state.at_ 3
      = .ok (Char.ofNat 0) ∧
    (((Rope.ofText "hello".toList).insert 5 "ab".toList).state.insert 7 "c".toList).state.at_ 4
      = .error Fault.Undefined := by
  refine ⟨by decide, rfl, by decide, by decide, rfl, rfl⟩

/-- C7 fails on the code. After `insert(5, " world")` on the rope holding "hello",
`length()` is 11 and `substr(5, 3)` does not return: its second lookup `at(6)` throws
OutOfRange, which leaves `substr`. -/
theorem C7_substr_throws :
    ((Rope.ofText "hello".toList).insert 5 " world".toList).state.length = 11 ∧
    ((Rope.ofText "hello".toList).insert 5 " world".toList).state.at_ 6
      = .error Fault.OutOfRange ∧
    ((Rope.ofText "hello".toList).insert 5 " world".toList).state.substr 5 3
      = .error Fault.OutOfRange := by
  refine ⟨by decide, rfl, rfl⟩

/-- C8 fails on the code. On a new buffer, `insert(0, "abc")`, `erase(0, 3)`, `undo()`
all return without an exception and end with `length()` equal to 0 and the selection at
(3, 3): `undo()` installs the selection recorded before the erase while the rope stays
as the erase left it. -/
theorem C8_selection_beyond_length :
    (Buffer.new.insert 0 "abc".toList).thrown = none ∧
    ((Buffer.new.insert 0 "abc".toList).state.erase 0 3).thrown = none ∧
    ((Buffer.new.insert 0 "abc".toList).state.erase 0 3).state.undo.thrown = none ∧
    ((Buffer.new.insert 0 "abc".toList).state.erase 0 3).state.undo.state.length = 0 ∧
    ((Buffer.new.insert 0 "abc".toList).state.erase 0 3).state.undo.state.getSelection
      = ⟨3, 3⟩ := by
  decide

/-- C9 fails on the code. On a new buffer, `insert(0, "hello")`, `insert(5, " world")`,
`replace(0, 5, "HELLO")` all return without an exception and `text()` is "HELLO", not
"HELLO world". Already on the buffer holding just "hello", `replace(0, 2, "J")` gives
"J" where the claim gives "Jllo": the erase step removes the whole leaf. -/
theorem C9_replace_loses_text :
    (((Buffer.new.insert 0 "hello".toList).state.insert 5 " world".toList).state.replace
      0 5 "HELLO".toList).thrown = none ∧
    (((Buffer.new.insert 0 "hello".toList).state.insert 5 " world".toList).state.replace
      0 5 "HELLO".toList).state.text = "HELLO".toList ∧
    (Buffer.new.insert 0 "hello".toList).state.text = "hello".toList ∧
    ((Buffer.new.insert 0 "hello".toList).state.replace 0 2 "J".toList).thrown = none ∧
    ((Buffer.new.insert 0 "hello".toList).state.replace 0 2 "J".toList).state.text
      = "J".toList ∧
    ((Buffer.new.insert 0 "hello".toList).state.replace 0 2 "J".toList).state.text
      ≠ (Buffer.new.insert 0 "hello".toList).state.text.take 0 ++ "J".toList
          ++ (Buffer.new.insert 0 "hello".toList).state.text.drop (0 + min 2 (5 - 0)) := by
  decide

/-- C10 fails on the code. After `insert(5, " world")` on the rope holding "hello",
`length()` is 11 while `to_string()` has 6 characters; after `erase(0, 1)` on the rope
holding "abc", `empty()` is false while `to_string()` is the empty string. -/
theorem C10_cached_length_disagrees :
    ((Rope.ofText "hello".toList).insert 5 " world".toList).state.length = 11 ∧
    ((Rope.ofText "hello".toList).insert 5 " world".toList).state.to_string.length = 6 ∧
    ((Rope.ofText "abc".toList).erase 0 1).thrown = none ∧
    ((Rope.ofText "abc".toList).erase 0 1).state.empty = false ∧
    ((Rope.ofText "abc".toList).erase 0 1).state.to_string = [] := by
  decide

/-- C11. In every rope state: `insert(pos, text)` throws OutOfRange exactly when
`pos > length()` and otherwise returns, whatever the text (the empty one too);
`erase(pos, len)` throws OutOfRange exactly when `pos >= length()` and otherwise returns,
whatever `len` (0 too); a call that throws leaves the rope as it was; and `insert` of the
empty text and `erase` of `len` 0 leave it as it was as well. -/
theorem C11_rope_range_checks (r : Rope) (pos len : Nat) (text : Text) :
    ((r.insert pos text).thrown = some Fault.OutOfRange ↔ pos > r.length) ∧
    ((r.insert pos text).thrown = none ↔ pos ≤ r.length) ∧
    ((r.erase pos len).thrown = some Fault.OutOfRange ↔ pos ≥ r.length) ∧
    ((r.erase pos len).thrown = none ↔ pos < r.length) ∧
    ((r.insert pos text).thrown ≠ none → (r.insert pos text).state = r) ∧
    ((r.erase pos len).thrown ≠ none → (r.erase pos len).state = r) ∧
    (r.insert pos []).state = r ∧
    (r.erase pos 0).state = r := by
  refine ⟨?_, ?_, ?_, ?_, Rope.insert_state_of_thrown r pos text,
    Rope.erase_state_of_thrown r pos len, ?_, ?_⟩
  · rw [Rope.insert_thrown]; unfold Rope.length; split <;> simp_all
  · rw [Rope.insert_thrown]; unfold Rope.length; split <;> simp_all
  · rw [Rope.erase_thrown]; unfold Rope.length; split <;> simp_all
  · rw [Rope.erase_thrown]; unfold Rope.length; split <;> simp_all
  · unfold Rope.insert; split <;> simp
  · unfold Rope.erase; split <;> simp

/-- C11 at concrete inputs: on the rope holding "abc", `insert(4, "")` and `erase(3, 0)`
throw and leave the rope as it was, `insert(3, "")` and `erase(2, 0)` return. -/
theorem C11_rope_range_checks_witness :
    ((Rope.ofText "abc".toList).insert 4 []).thrown = some Fault.OutOfRange ∧
    ((Rope.ofText "abc".toList).insert 4 []).state = Rope.ofText "abc".toList ∧
    ((Rope.ofText "abc".toList).erase 3 0).thrown = some Fault.OutOfRange ∧
    ((Rope.ofText "abc".toList).erase 3 0).state = Rope.ofText "abc".toList ∧
    ((Rope.ofText "abc".toList).insert 3 []).thrown = none ∧
    ((Rope.ofText "abc".toList).erase 2 0).thrown = none :=
  have h := C11_rope_range_checks (Rope.ofText "abc".toList) 4 0 []
  have h3 := C11_rope_range_checks (Rope.ofText "abc".toList) 3 0 []
  have h2 := C11_rope_range_checks (Rope.ofText "abc".toList) 2 0 []
  ⟨h.1.2 (by decide), h.2.2.2.2.1 (by decide), h3.2.2.1.2 (by decide),
    h3.2.2.2.2.2.1 (by decide), h3.2.1.2 (by decide), h2.2.2.2.1.2 (by decide)⟩

/-- C12. For every rope state with `length()` = n: when `insert(pos, t)` returns,
`length()` is n + |t|; when `erase(pos, len)` returns, `length()` is
n - min(len, n - pos). -/
theorem C12_length_bookkeeping (r : Rope) (pos len : Nat) (t : Text) :
    ((r.insert pos t).thrown = none →
      (r.insert pos t).state.length = r.length + t.length) ∧
    ((r.erase pos len).thrown = none →
      (r.erase pos len).state.length = r.length - min len (r.length - pos)) :=
  ⟨Rope.insert_length r pos t, Rope.erase_length r pos len⟩

/-- C12 at concrete inputs: on the rope holding "hello", `insert(5, " world")` returns
with `length()` 5 + 6 and `erase(3, 9)` returns with `length()` 5 - min(9, 5 - 3). -/
theorem C12_length_bookkeeping_witness :
    ((Rope.ofText "hello".toList).insert 5 " world".toList).thrown = none ∧
    ((Rope.ofText "hello".toList).insert 5 " world".toList).state.length = 5 + 6 ∧
    ((Rope.ofText "hello".toList).erase 3 9).thrown = none ∧
    ((Rope.ofText "hello".toList).erase 3 9).state.length = 5 - min 9 (5 - 3) :=
  have h := C12_length_bookkeeping (Rope.ofText "hello".toList) 5 9 " world".toList
  have h3 := C12_length_bookkeeping (Rope.ofText "hello".toList) 3 9 []
  ⟨by decide, h.1 (by decide), by decide, h3.2 (by decide)⟩

/-- C13. In every buffer state reachable from a new Buffer by calls of insert, erase,
replace, setCursor, setSelection, undo, redo and loadFromFile that return without an
exception, `isModified()` is false exactly when `canUndo()` is false. -/
theorem C13_modified_iff_can_undo (b : Buffer) (h : Buffer.Reachable b) :
    b.isModified = false ↔ b.canUndo = false := by
  have key : b.modified_ = !b.undoStack_.isEmpty := by
    induction h with
    | new => rfl
    | step c _ hok ih => exact modified_tracks_undo_run _ c ih hok
  unfold Buffer.isModified Buffer.canUndo
  rw [key]

/-- C13 at a concrete state: after `insert(0, "hello")` and `undo()` on a new buffer both
`isModified()` and `canUndo()` are false. -/
theorem C13_modified_iff_can_undo_witness :
    Buffer.Reachable
      (((Buffer.new.run (Call.insert 0 "hello".toList)).state).run Call.undo).state ∧
    ((((Buffer.new.run (Call.insert 0 "hello".toList)).state).run Call.undo).state.isModified
        = false ↔
      (((Buffer.new.run (Call.insert 0 "hello".toList)).state).run Call.undo).state.canUndo
        = false) :=
  ⟨Buffer.Reachable.step Call.undo
      (Buffer.Reachable.step (Call.insert 0 "hello".toList) Buffer.Reachable.new (by decide))
      (by decide),
    C13_modified_iff_can_undo _
      (Buffer.Reachable.step Call.undo
        (Buffer.Reachable.step (Call.insert 0 "hello".toList) Buffer.Reachable.new (by decide))
        (by decide))⟩

/-- C14. For every buffer state: when `insert` with a non-empty text, `erase` with
`len > 0`, or `replace` returns without an exception, the redo stack is empty, the undo
stack is one record deeper than before, and `canRedo()` is false. -/
theorem C14_fresh_edit_prunes_redo (b : Buffer) :
    (∀ (pos : Nat) (text : Text), text ≠ [] → (b.insert pos text).thrown = none →
      (b.insert pos text).state.redoStack_ = [] ∧
      (b.insert pos text).state.undoStack_.length = b.undoStack_.length + 1 ∧
      (b.insert pos text).state.canRedo = false) ∧
    (∀ (pos len : Nat), len > 0 → (b.erase pos len).thrown = none →
      (b.erase pos len).state.redoStack_ = [] ∧
      (b.erase pos len).state.undoStack_.length = b.undoStack_.length + 1 ∧
      (b.erase pos len).state.canRedo = false) ∧
    (∀ (pos len : Nat) (text : Text), (b.replace pos len text).thrown = none →
      (b.replace pos len text).state.redoStack_ = [] ∧
      (b.replace pos len text).state.undoStack_.length = b.undoStack_.length + 1 ∧
      (b.replace pos len text).state.canRedo = false) := by
  refine ⟨?_, ?_, ?_⟩
  · intro pos text ht hok
    simp only [Buffer.insert, ht, if_false] at hok ⊢
    cases hr : (b.rope_.insert pos text).thrown with
    | some e => simp [hr] at hok
    | none => simp [hr, Buffer.pushEdit, Buffer.clearRedoStack, Buffer.canRedo]
  · intro pos len hl hok
    have hl0 : len ≠ 0 := by omega
    simp only [Buffer.erase, hl0, if_false] at hok ⊢
    cases hs : b.rope_.substr pos len with
    | error e => simp [hs] at hok
    | ok oldText =>
      simp only [hs] at hok ⊢
      cases hr : (b.rope_.erase pos len).thrown with
      | some e => simp [hr] at hok
      | none => simp [hr, Buffer.pushEdit, Buffer.clearRedoStack, Buffer.canRedo]
  · intro pos len text hok
    simp only [Buffer.replace] at hok ⊢
    cases hs : b.rope_.substr pos len with
    | error e => simp [hs] at hok
    | ok oldText =>
      simp only [hs] at hok ⊢
      cases hr : (b.rope_.erase pos len).thrown with
      | some e => simp [hr] at hok
      | none =>
        simp only [hr] at hok ⊢
        cases hr2 : ((b.rope_.erase pos len).state.insert pos text).thrown with
        | some e => simp [hr2] at hok
        | none => simp [hr2, Buffer.pushEdit, Buffer.clearRedoStack, Buffer.canRedo]

/-- C14 at a concrete state: after `insert(0, "hello")` and `undo()` on a new buffer the
redo stack holds one record; `insert(0, "x")`, `erase(0, 1)` and `replace(0, 1, "y")` each
return and leave the redo stack empty and one record on the undo stack. -/
theorem C14_fresh_edit_prunes_redo_witness :
    (Buffer.new.insert 0 "hello".toList).state.undo.state.canRedo = true ∧
    ((Buffer.new.insert 0 "hello".toList).state.undo.state.insert 0 "x".toList).state.redoStack_
      = [] ∧
    ((Buffer.new.insert 0 "hello".toList).state.undo.state.insert
      0 "x".toList).state.undoStack_.length = 0 + 1 ∧
    ((Buffer.new.insert 0 "hello".toList).state.undo.state.erase 0 1).state.canRedo = false ∧
    ((Buffer.new.insert 0 "hello".toList).state.undo.state.replace
      0 1 "y".toList).state.canRedo = false :=
  have h := C14_fresh_edit_prunes_redo (Buffer.new.insert 0 "hello".toList).state.undo.state
  ⟨by decide,
    (h.1 0 "x".toList (by decide) (by decide)).1,
    (h.1 0 "x".toList (by decide) (by decide)).2.1,
    (h.2.1 0 1 (by decide) rfl).2.2,
    (h.2.2 0 1 "y".toList rfl).2.2⟩

/-- C15. For every buffer state with stack depths (u, r): `undo()` with u > 0 pops a
record `op`, leaves depths (u - 1, r + 1), and pushes onto the redo stack the record
with `op.position`, `oldText` = `op.newText`, `newText` = `op.oldText`, `oldSelection` =
`op.newSelection`, `newSelection` = `op.oldSelection`; `redo()` with r > 0 leaves depths
(u + 1, r - 1); `undo()` with u = 0 and `redo()` with r = 0 return with the whole buffer
as it was. -/
theorem C15_history_transitions (b : Buffer) :
    (0 < b.undoStack_.length → ∃ op, b.undoStack_.getLast? = some op ∧
      b.undo.state.undoStack_ = b.undoStack_.dropLast ∧
      b.undo.state.undoStack_.length = b.undoStack_.length - 1 ∧
      b.undo.state.redoStack_.length = b.redoStack_.length + 1 ∧
      b.undo.state.redoStack_ = b.redoStack_ ++
        [⟨op.position, op.newText, op.oldText, op.newSelection, op.oldSelection⟩]) ∧
    (0 < b.redoStack_.length →
      b.redo.state.undoStack_.length = b.undoStack_.length + 1 ∧
      b.redo.state.redoStack_.length = b.redoStack_.length - 1) ∧
    (b.undoStack_.length = 0 → b.undo = ⟨b, none⟩) ∧
    (b.redoStack_.length = 0 → b.redo = ⟨b, none⟩) := by
  refine ⟨?_, ?_, ?_, ?_⟩
  · intro hu
    cases hl : b.undoStack_.getLast? with
    | none =>
      rw [List.getLast?_eq_none_iff] at hl
      simp [hl] at hu
    | some op =>
      refine ⟨op, rfl, ?_⟩
      simp [Buffer.undo, hl, movedFrom]
  · intro hr
    cases hl : b.redoStack_.getLast? with
    | none =>
      rw [List.getLast?_eq_none_iff] at hl
      simp [hl] at hr
    | some op => simp [Buffer.redo, hl, movedFrom, EditOperation.movedFrom]
  · intro hu
    have h0 : b.undoStack_ = [] := List.length_eq_zero.mp hu
    simp [Buffer.undo, h0]
  · intro hr
    have h0 : b.redoStack_ = [] := List.length_eq_zero.mp hr
    simp [Buffer.redo, h0]

/-- C15 at concrete states: the new buffer has depths (0, 0) and both calls leave it as
it is; after `insert(0, "hello")` the depths are (1, 0) and `undo()` gives (0, 1) with
the inverse record on the redo stack; then `redo()` gives (1, 0). -/
theorem C15_history_transitions_witness :
    Buffer.new.undo = ⟨Buffer.new, none⟩ ∧
    Buffer.new.redo = ⟨Buffer.new, none⟩ ∧
    (Buffer.new.insert 0 "hello".toList).state.undo.state.undoStack_.length = 1 - 1 ∧
    (Buffer.new.insert 0 "hello".toList).state.undo.state.redoStack_
      = [⟨0, "hello".toList, [], Selection.collapsed 5, Selection.collapsed 0⟩] ∧
    (Buffer.new.insert 0 "hello".toList).state.undo.state.redo.state.undoStack_.length
      = 0 + 1 ∧
    (Buffer.new.insert 0 "hello".toList).state.undo.state.redo.state.redoStack_.length
      = 1 - 1 :=
  have h0 := C15_history_transitions Buffer.new
  have h1 := C15_history_transitions (Buffer.new.insert 0 "hello".toList).state
  have h2 := C15_history_transitions (Buffer.new.insert 0 "hello".toList).state.undo.state
  ⟨h0.2.2.1 rfl, h0.2.2.2 rfl,
    (h1.1 (by decide)).elim (fun _ h => h.2.2.1),
    by decide,
    (h2.2.1 (by decide)).1, (h2.2.1 (by decide)).2⟩

/-- C16. For every buffer state with selection `sel`, every non-empty text `t` and every
`pos <= length()`: `insert(pos, t)` returns, the selection is then collapsed at
`pos + |t|`, `isModified()` is true, and the last record of the undo stack is
(pos, "", t, sel, collapsed at pos + |t|); and `insert(pos, "")` returns with the whole
buffer as it was for every `pos`, beyond `length()` too. -/
theorem C16_insert_postcondition (b : Buffer) (pos : Nat) (t : Text)
    (ht : t ≠ []) (hpos : pos ≤ b.length) :
    (b.insert pos t).thrown = none ∧
    (b.insert pos t).state.getSelection = Selection.collapsed (pos + t.length) ∧
    (b.insert pos t).state.isModified = true ∧
    (b.insert pos t).state.undoStack_.getLast?
      = some ⟨pos, [], t, b.getSelection, Selection.collapsed (pos + t.length)⟩ ∧
    (∀ p : Nat, b.insert p [] = ⟨b, none⟩) := by
  have hr : (b.rope_.insert pos t).thrown = none := by
    rw [Rope.insert_thrown]
    have : ¬ pos > b.rope_.length_ := Nat.not_lt.mpr hpos
    simp [this]
  refine ⟨?_, ?_, ?_, ?_, ?_⟩
  · simp [Buffer.insert, ht, hr]
  · simp [Buffer.insert, ht, hr, Buffer.pushEdit, Buffer.clearRedoStack, Buffer.getSelection]
  · simp [Buffer.insert, ht, hr, Buffer.pushEdit, Buffer.clearRedoStack, Buffer.isModified]
  · simp [Buffer.insert, ht, hr, Buffer.pushEdit, Buffer.clearRedoStack, Buffer.getSelection]
  · intro p
    simp [Buffer.insert]

/-- C16 at a concrete input: on the buffer holding "hello" with selection (2, 4),
`insert(5, " world")` returns with the selection collapsed at 11 and the record
(5, "", " world", (2, 4), (11, 11)) on top of the undo stack. -/
theorem C16_insert_postcondition_witness :
    (((Buffer.new.insert 0 "hello".toList).state.setSelection 2 4).insert
      5 " world".toList).thrown = none ∧
    (((Buffer.new.insert 0 "hello".toList).state.setSelection 2 4).insert
      5 " world".toList).state.getSelection = Selection.collapsed (5 + 6) ∧
    (((Buffer.new.insert 0 "hello".toList).state.setSelection 2 4).insert
      5 " world".toList).state.isModified = true ∧
    (((Buffer.new.insert 0 "hello".toList).state.setSelection 2 4).insert
      5 " world".toList).state.undoStack_.getLast?
      = some ⟨5, [], " world".toList, ⟨2, 4⟩, Selection.collapsed (5 + 6)⟩ ∧
    (∀ p : Nat, ((Buffer.new.insert 0 "hello".toList).state.setSelection 2 4).insert p []
      = ⟨(Buffer.new.insert 0 "hello".toList).state.setSelection 2 4, none⟩) :=
  C16_insert_postcondition ((Buffer.new.insert 0 "hello".toList).state.setSelection 2 4)
    5 " world".toList (by decide) (by decide)

/-- C17. For every buffer state and all `start`, `end`, `pos`: `setSelection(start, end)`
makes the selection (min(start, length()), min(end, length())), in the order given;
`setCursor(pos)` makes it the collapsed pair at min(pos, length()); both leave the rope
(so `text()` and `length()`), the undo stack, the redo stack and `isModified()` as they
were. Neither function contains a call that can throw, so both are total here. -/
theorem C17_setters_clamp (b : Buffer) (start end_ pos : Nat) :
    (b.setSelection start end_).getSelection = ⟨min start b.length, min end_ b.length⟩ ∧
    (b.setCursor pos).getSelection = Selection.collapsed (min pos b.length) ∧
    (b.setSelection start end_).text = b.text ∧
    (b.setSelection start end_).rope_ = b.rope_ ∧
    (b.setSelection start end_).undoStack_ = b.undoStack_ ∧
    (b.setSelection start end_).redoStack_ = b.redoStack_ ∧
    (b.setSelection start end_).isModified = b.isModified ∧
    (b.setCursor pos).text = b.text ∧
    (b.setCursor pos).rope_ = b.rope_ ∧
    (b.setCursor pos).undoStack_ = b.undoStack_ ∧
    (b.setCursor pos).redoStack_ = b.redoStack_ ∧
    (b.setCursor pos).isModified = b.isModified :=
  ⟨rfl, rfl, rfl, rfl, rfl, rfl, rfl, rfl, rfl, rfl, rfl, rfl⟩

/-- C18. In every rope state reachable from `Rope()` or `Rope(s)` by `insert` and `erase`
calls that return without an exception, every node of the tree is in order: a leaf has
`length` equal to the size of its fragment, a node with a child holds no text and has
`weight` = length of the left child and `length` = `weight` + length of the right child,
and each node's `length` is the number of characters `collect_text` yields from it. -/
theorem C18_every_node_in_order (r : Rope) (h : Rope.Reachable r) : r.root_.AllNodesOk := by
  induction h with
  | empty_ => trivial
  | ofText s =>
    unfold Rope.ofText
    split
    · exact allNodesOk_leaf s
    · trivial
  | insert pos text _ _ ih =>
    unfold Rope.insert
    split
    · exact ih
    · split
      · exact ih
      · exact allNodesOk_insert_at _ _ _ ih
  | erase pos len _ _ ih =>
    unfold Rope.erase
    split
    · exact ih
    · dsimp only
      split
      · exact ih
      · exact allNodesOk_erase_range _ _ _ ih

/-- C18 at a concrete state: the rope reached by `insert(5, " world")` on the rope
holding "hello" has every node in order, although its text is " world". -/
theorem C18_every_node_in_order_witness :
    Rope.Reachable ((Rope.ofText "hello".toList).insert 5 " world".toList).state ∧
    ((Rope.ofText "hello".toList).insert 5 " world".toList).state.root_.AllNodesOk :=
  ⟨Rope.Reachable.insert 5 " world".toList (Rope.Reachable.ofText "hello".toList) (by decide),
    C18_every_node_in_order _
      (Rope.Reachable.insert 5 " world".toList (Rope.Reachable.ofText "hello".toList)
        (by decide))⟩

/-- C19. For every buffer state: a call of `insert`, `erase` or `replace` that throws
OutOfRange leaves the whole buffer (rope with its cached length, selection, both stacks,
modified flag) as it was; and inside `replace`, once the erase step has returned, the
insert step returns as well. -/
theorem C19_failed_edits_atomic (b : Buffer) :
    (∀ (pos : Nat) (text : Text), (b.insert pos text).thrown = some Fault.OutOfRange →
      (b.insert pos text).state = b) ∧
    (∀ (pos len : Nat), (b.erase pos len).thrown = some Fault.OutOfRange →
      (b.erase pos len).state = b) ∧
    (∀ (pos len : Nat) (text : Text),
      (b.replace pos len text).thrown = some Fault.OutOfRange →
      (b.replace pos len text).state = b) ∧
    (∀ (pos len : Nat) (text : Text), (b.rope_.erase pos len).thrown = none →
      ((b.rope_.erase pos len).state.insert pos text).thrown = none) := by
  have step2 : ∀ (pos len : Nat) (text : Text), (b.rope_.erase pos len).thrown = none →
      ((b.rope_.erase pos len).state.insert pos text).thrown = none := by
    intro pos len text hok
    have hlen := Rope.erase_length b.rope_ pos len hok
    rw [Rope.erase_thrown] at hok
    rw [Rope.insert_thrown, hlen]
    have hp : ¬ pos ≥ b.rope_.length_ := by
      intro hge
      simp [hge] at hok
    have : ¬ pos > b.rope_.length_ - min len (b.rope_.length_ - pos) := by omega
    simp [this]
  refine ⟨?_, ?_, ?_, step2⟩
  · intro pos text hf
    simp only [Buffer.insert] at hf ⊢
    by_cases ht : text = []
    · simp [ht]
    · simp only [ht, if_false] at hf ⊢
      cases hr : (b.rope_.insert pos text).thrown with
      | some e =>
        have hs := Rope.insert_state_of_thrown b.rope_ pos text (by simp [hr])
        simp [hr, hs]
      | none => simp [hr] at hf
  · intro pos len hf
    simp only [Buffer.erase] at hf ⊢
    by_cases hl : len = 0
    · simp [hl]
    · simp only [hl, if_false] at hf ⊢
      cases hs : b.rope_.substr pos len with
      | error e => simp [hs]
      | ok oldText =>
        simp only [hs] at hf ⊢
        cases hr : (b.rope_.erase pos len).thrown with
        | some e =>
          have hst := Rope.erase_state_of_thrown b.rope_ pos len (by simp [hr])
          simp [hr, hst]
        | none => simp [hr] at hf
  · intro pos len text hf
    simp only [Buffer.replace] at hf ⊢
    cases hs : b.rope_.substr pos len with
    | error e => simp [hs]
    | ok oldText =>
      simp only [hs] at hf ⊢
      cases hr : (b.rope_.erase pos len).thrown with
      | some e =>
        have hst := Rope.erase_state_of_thrown b.rope_ pos len (by simp [hr])
        simp [hr, hst]
      | none =>
        have h2 := step2 pos len text hr
        simp [hr, h2] at hf

/-- C19 at concrete inputs: on the buffer holding "abc" with one undo record,
`insert(4, "x")`, `erase(3, 1)` and `replace(3, 0, "x")` throw OutOfRange and leave the
buffer as it was; the erase step of `replace(1, 5, "x")` returns and so does its insert
step. -/
theorem C19_failed_edits_atomic_witness :
    ((Buffer.new.insert 0 "abc".toList).state.insert 4 "x".toList).thrown
      = some Fault.OutOfRange ∧
    ((Buffer.new.insert 0 "abc".toList).state.insert 4 "x".toList).state
      = (Buffer.new.insert 0 "abc".toList).state ∧
    ((Buffer.new.insert 0 "abc".toList).state.erase 3 1).state
      = (Buffer.new.insert 0 "abc".toList).state ∧
    ((Buffer.new.insert 0 "abc".toList).state.replace 3 0 "x".toList).state
      = (Buffer.new.insert 0 "abc".toList).state ∧
    (((Buffer.new.insert 0 "abc".toList).state.rope_.erase 1 5).state.insert
      1 "x".toList).thrown = none :=
  have h := C19_failed_edits_atomic (Buffer.new.insert 0 "abc".toList).state
  ⟨by decide, h.1 4 "x".toList (by decide), h.2.1 3 1 (by decide),
    h.2.2.1 3 0 "x".toList (by decide), h.2.2.2 1 5 "x".toList (by decide)⟩

/-- C20. For every buffer state, every `pos >= length()`, every `len` and every text
`t`: `replace(pos, len, t)` throws OutOfRange; so does `replace(length(), 0, t)`, while
`insert(length(), t)` returns; and when `length()` is 0 every `replace` call throws
OutOfRange. -/
theorem C20_replace_rejects_end (b : Buffer) (pos len : Nat) (t : Text)
    (hpos : pos ≥ b.length) :
    (b.replace pos len t).thrown = some Fault.OutOfRange ∧
    (b.replace b.length 0 t).thrown = some Fault.OutOfRange ∧
    (b.insert b.length t).thrown = none ∧
    (b.length = 0 → ∀ (p l : Nat) (s : Text),
      (b.replace p l s).thrown = some Fault.OutOfRange) := by
  have key : ∀ (p l : Nat) (s : Text), p ≥ b.rope_.length_ →
      (b.replace p l s).thrown = some Fault.OutOfRange := by
    intro p l s hp
    have hs : b.rope_.substr p l = .ok [] := by simp [Rope.substr, hp]
    have he : (b.rope_.erase p l).thrown = some Fault.OutOfRange := by
      rw [Rope.erase_thrown]; simp [hp]
    simp [Buffer.replace, hs, he]
  refine ⟨key pos len t hpos, key _ 0 t (Nat.le_refl _), ?_, ?_⟩
  · by_cases ht : t = []
    · simp [Buffer.insert, ht]
    · have hr : (b.rope_.insert b.rope_.length_ t).thrown = none := by
        rw [Rope.insert_thrown]; simp
      simp [Buffer.insert, ht, Buffer.length, Rope.length, hr]
  · intro h0 p l s
    apply key
    have : b.rope_.length_ = 0 := h0
    omega

/-- C20 at concrete inputs: on the buffer holding "abc", `replace(3, 0, "x")` throws
OutOfRange while `insert(3, "x")` returns. -/
theorem C20_replace_rejects_end_witness :
    3 ≥ (Buffer.new.insert 0 "abc".toList).state.length ∧
    ((Buffer.new.insert 0 "abc".toList).state.replace 3 0 "x".toList).thrown
      = some Fault.OutOfRange ∧
    ((Buffer.new.insert 0 "abc".toList).state.insert 3 "x".toList).thrown = none :=
  have h := C20_replace_rejects_end (Buffer.new.insert 0 "abc".toList).state 3 0
    "x".toList (by decide)
  ⟨by decide, h.1, h.2.2.1⟩

end editor
